import Mathlib

/-!
Shallow embedding of the quotes scraper (run.py and scraper.py): the
extraction of records from rendered pages, the scrape loop with its
pagination and teardown behaviour, and the configuration handling of the
entry point. Strings are modelled as lists of characters.
-/

namespace QuotesScraper

/-- Strings of the program, modelled as lists of characters. -/
abbrev Str := List Char

/-- One tag anchor element (an anchor of class tag) inside the tag
container of a record container of the rendered markup. -/
structure TagElem where
  text : Str
deriving DecidableEq, Repr

/-- One record container (a div of class quote) of the rendered markup.
Each field holds the content of a matched sub-element, or none when that
sub-element is missing from the container. -/
structure Container where
  textElem : Option Str
  authorElem : Option Str
  tagsElem : Option (List TagElem)
deriving DecidableEq, Repr

/-- A scraped record as written to the output file by process_page. -/
structure Record where
  text : Str
  author : Str
  tags : List Str
deriving DecidableEq, Repr

/-- The Python slice [1:-1] used on the text of the text element: it drops
the first and the last character, and yields the empty string on inputs of
length zero or one. -/
def pySlice1m1 (s : Str) : Str := (s.drop 1).dropLast

/-- The body of the extraction loop of process_page, for one container:
the text field is the text of the span of class text sliced with [1:-1],
the author field is the raw text of the small of class author, the tags
field maps each anchor of class tag inside the div of class tags to its
text. A missing sub-element makes the attribute access of the source raise
(find returns None, reading text fails), modelled as none. -/
def extractRecord (c : Container) : Option Record :=
  match c.textElem, c.authorElem, c.tagsElem with
  | some t, some a, some ts => some ⟨pySlice1m1 t, a, ts.map TagElem.text⟩
  | _, _, _ => none

/-- process_page: opens the output file in append mode and writes one line
per container, streaming one write per record; the failure on a malformed
container propagates after the earlier writes were already made. The first
component is the sink content after the call, the second is true exactly
when the call raised. -/
def process_page : List Container → List Record → List Record × Bool
  | [], sink => (sink, false)
  | c :: cs, sink =>
    match extractRecord c with
    | some r => process_page cs (sink ++ [r])
    | none => (sink, true)

/-- A value of the jsonlines object written as one output line. -/
inductive JVal
  | s (v : Str)
  | arr (vs : List Str)
deriving DecidableEq, Repr

/-- The self-describing object written as one line for a record, with the
field order of the source call: text, by, tags. -/
def recordObj (r : Record) : List (Str × JVal) :=
  [("text".toList, JVal.s r.text), ("by".toList, JVal.s r.author),
   ("tags".toList, JVal.arr r.tags)]

/-- A container is well formed when all three required sub-elements are
present. -/
def wellFormed (c : Container) : Bool :=
  c.textElem.isSome && c.authorElem.isSome && c.tagsElem.isSome

/-- The record extracted from a well formed container. -/
def recordOf (c : Container) : Record :=
  ⟨pySlice1m1 (c.textElem.getD []), c.authorElem.getD [],
   (c.tagsElem.getD []).map TagElem.text⟩

/-- What the site serves for one loop iteration: the record containers the
page renders (wait_for_quotes succeeds exactly when at least one is
present) and the destination the next-page link click leads to, none when
no next-page element appears within the one second lookup timeout. -/
structure PageSpec where
  containers : List Container
  nextUrl : Option Str
deriving DecidableEq, Repr

/-- The errors that can escape the scrape loop. -/
inductive ScrapeErr
  | contentTimeout
  | malformedRecord
deriving DecidableEq, Repr

/-- How the scrape loop ended: the break on a missing next link, an
uncaught error, or the run outgrowing the supplied site model. -/
inductive LoopExit
  | done
  | err (e : ScrapeErr)
  | pagesExhausted
deriving DecidableEq, Repr

/-- The while loop of Scraper.scrape, consuming one PageSpec per
iteration. Each iteration: page.goto on the current address (recorded in
the visited list), wait_for_quotes (raising contentTimeout when the page
renders no quote container), process_page (raising on a malformed
container), then the next-button lookup, whose timeout is the only caught
exception and breaks the loop; otherwise the click happens and the current
address becomes the post-click location of the browser. Result: the sink
content, the visited addresses in order, and the exit kind. -/
def scrapeLoop : Str → List PageSpec → List Record → List Record × List Str × LoopExit
  | _, [], sink => (sink, [], LoopExit.pagesExhausted)
  | url, p :: ps, sink =>
    if p.containers = [] then (sink, [url], LoopExit.err ScrapeErr.contentTimeout)
    else
      match process_page p.containers sink with
      | (sink2, true) => (sink2, [url], LoopExit.err ScrapeErr.malformedRecord)
      | (sink2, false) =>
        match p.nextUrl with
        | none => (sink2, [url], LoopExit.done)
        | some nxt =>
          match scrapeLoop nxt ps sink2 with
          | (s3, vs, ex) => (s3, url :: vs, ex)

/-- The observable outcome of one scrape run. -/
structure RunResult where
  sink : List Record
  visited : List Str
  exitKind : LoopExit
  stopCalls : Nat
deriving DecidableEq, Repr

/-- Scraper.scrape for a run whose session start succeeds: the loop runs,
and stop_playwright, written after the loop with no protection against
exceptions, runs exactly when the loop exits through break; an exception
escaping the loop propagates past the teardown call. stopCalls counts the
invocations of stop_playwright. -/
def scrape (startUrl : Str) (site : List PageSpec) (sink0 : List Record) : RunResult :=
  match scrapeLoop startUrl site sink0 with
  | (s, vs, ex) => ⟨s, vs, ex, if ex = LoopExit.done then 1 else 0⟩

/-- The three environment variables read by run.main. -/
structure Env where
  PROXY : Option Str
  INPUT_URL : Option Str
  OUTPUT_FILE : Option Str
deriving DecidableEq, Repr

/-- The attributes the Scraper constructor sets from its arguments. -/
structure ScraperInit where
  input_url : Str
  output_file : Str
  proxy_url : Option Str
deriving DecidableEq, Repr

/-- run.main: builds the config dict from the three environment variables;
when any of the three values is None it reports the missing names and
returns without constructing a Scraper; otherwise it constructs the
Scraper, passing only input_url and output_file (the proxy argument of the
call is commented out in the source, so proxy_url keeps its default None),
and starts the scrape. -/
def main (env : Env) : Option ScraperInit :=
  match env.PROXY, env.INPUT_URL, env.OUTPUT_FILE with
  | some _, some iu, some o => some ⟨iu, o, none⟩
  | _, _, _ => none

/-- The proxy fields process_proxy assigns on the scraper. -/
structure ProxyParts where
  server : Str
  port : Str
  username : Str
  password : Str
deriving DecidableEq, Repr

/-- Unpacking a Python split into exactly two variables; any other number
of parts raises a ValueError, modelled as none. -/
def unpack2 : List Str → Option (Str × Str)
  | [a, b] => some (a, b)
  | _ => none

/-- process_proxy: splits proxy_url on the at sign into a credential half
and an endpoint half, then splits the credential half and the endpoint
half on the colon. -/
def process_proxy (p : Str) : Option ProxyParts :=
  match unpack2 (p.splitOn '@') with
  | none => none
  | some (up, sp) =>
    match unpack2 (up.splitOn ':'), unpack2 (sp.splitOn ':') with
    | some (u, pw), some (sv, pt) => some ⟨sv, pt, u, pw⟩
    | _, _ => none

/-- Python truthiness of the proxy_url attribute: None and the empty
string are falsy. -/
def proxyTruthy : Option Str → Bool
  | none => false
  | some s => !s.isEmpty

/-- The proxy handling of a run: the branch at the top of Scraper.scrape
runs process_proxy only when proxy_url is truthy, and start_playwright
puts a proxy entry into browser_args under the same condition. First
component: whether process_proxy ran; second: the proxy settings passed to
the browser launch, none when browser_args is empty. -/
def proxySetup (s : ScraperInit) : Bool × Option ProxyParts :=
  if proxyTruthy s.proxy_url then (true, process_proxy (s.proxy_url.getD []))
  else (false, none)

/-- A well formed container extracts to its record. -/
theorem extractRecord_wf (c : Container) (h : wellFormed c = true) :
    extractRecord c = some (recordOf c) := by
  obtain ⟨t, a, ts⟩ := c
  cases t <;> cases a <;> cases ts <;> simp_all [wellFormed, extractRecord, recordOf]

/-- A malformed container makes the extraction raise. -/
theorem extractRecord_malformed (c : Container) (h : wellFormed c = false) :
    extractRecord c = none := by
  obtain ⟨t, a, ts⟩ := c
  cases t <;> cases a <;> cases ts <;> simp_all [wellFormed, extractRecord]

/-- process_page only appends: the initial sink content stays as a prefix
of the result, and neither the appended records nor the raising behaviour
depend on the initial content. -/
theorem process_page_shift (cs : List Container) (sink : List Record) :
    ∀ extra, process_page cs (sink ++ extra)
      = (sink ++ (process_page cs extra).1, (process_page cs extra).2) := by
  induction cs with
  | nil => intro extra; simp [process_page]
  | cons c cs ih =>
    intro extra
    cases h : extractRecord c with
    | none => simp [process_page, h]
    | some r =>
      simp only [process_page, h, List.append_assoc]
      exact ih (extra ++ [r])

/-- Any call of process_page is the empty-sink call appended to the
initial sink. -/
theorem process_page_eq (cs : List Container) (sink : List Record) :
    process_page cs sink = (sink ++ (process_page cs []).1, (process_page cs []).2) := by
  simpa using process_page_shift cs sink []

/-- On a list of well formed containers process_page writes one record per
container and returns without raising. -/
theorem process_page_wf (cs : List Container) (sink : List Record)
    (h : ∀ c ∈ cs, wellFormed c = true) :
    process_page cs sink = (sink ++ cs.map recordOf, false) := by
  induction cs generalizing sink with
  | nil => simp [process_page]
  | cons c cs ih =>
    have hc := h c (List.mem_cons_self c cs)
    simp only [process_page, extractRecord_wf c hc]
    rw [ih (sink ++ [recordOf c]) (fun d hd => h d (List.mem_cons_of_mem c hd))]
    simp

/-- The slice [1:-1] shortens the input by two, truncated at zero. -/
theorem pySlice1m1_length (s : Str) : (pySlice1m1 s).length = s.length - 2 := by
  simp only [pySlice1m1, List.length_dropLast, List.length_drop]
  omega

/-- The scrape loop only appends to the sink, and its visited addresses
and exit kind do not depend on the initial sink content. -/
theorem scrapeLoop_shift (site : List PageSpec) :
    ∀ url sink extra, scrapeLoop url site (sink ++ extra)
      = (sink ++ (scrapeLoop url site extra).1, (scrapeLoop url site extra).2) := by
  induction site with
  | nil => intro url sink extra; simp [scrapeLoop]
  | cons p ps ih =>
    intro url sink extra
    rcases hpp : process_page p.containers extra with ⟨s2, b⟩
    by_cases hc : p.containers = []
    · simp [scrapeLoop, hc]
    · have hshift := process_page_shift p.containers sink extra
      rw [hpp] at hshift
      cases b with
      | true => simp [scrapeLoop, hc, hshift, hpp]
      | false =>
        cases hn : p.nextUrl with
        | none => simp [scrapeLoop, hc, hshift, hpp, hn]
        | some nxt =>
          have ihn := ih nxt sink s2
          simp [scrapeLoop, hc, hshift, hpp, hn, ihn]

/-- C1 counterexample: in a run whose session start succeeds but whose
first page renders no record container within the content-ready wait, the
scrape loop exits with the content timeout error and stop_playwright is
invoked zero times, against the claim that teardown runs exactly once on
every exit path. -/
theorem C1_counterexample :
    (scrape "http://quotes.toscrape.com/".toList [⟨[], none⟩] []).exitKind
      = LoopExit.err ScrapeErr.contentTimeout ∧
    (scrape "http://quotes.toscrape.com/".toList [⟨[], none⟩] []).stopCalls = 0 :=
  ⟨rfl, rfl⟩

/-- C1 amended: for a run whose session start succeeds, stop_playwright is
invoked exactly once when the scrape loop terminates normally through the
break on a missing next link, and zero times when the content wait or the
page extraction raises, because the source places the teardown call after
the loop with no protection against exceptions. -/
theorem C1_amended_stop (url : Str) (site : List PageSpec) (sink : List Record) :
    ((scrape url site sink).exitKind = LoopExit.done →
      (scrape url site sink).stopCalls = 1) ∧
    ∀ e, (scrape url site sink).exitKind = LoopExit.err e →
      (scrape url site sink).stopCalls = 0 := by
  unfold scrape
  rcases scrapeLoop url site sink with ⟨s, vs, ex⟩
  refine ⟨fun h1 => ?_, fun e h2 => ?_⟩
  · simp_all
  · simp_all

/-- C1 amended, applied to a one page site holding one well formed record
container and no next link. -/
theorem C1_amended_stop_witness :
    (scrape "http://quotes.toscrape.com/".toList
      [⟨[⟨some "ab".toList, some "A".toList, some []⟩], none⟩] []).stopCalls = 1 :=
  (C1_amended_stop "http://quotes.toscrape.com/".toList
    [⟨[⟨some "ab".toList, some "A".toList, some []⟩], none⟩] []).1 rfl

/-- C2 counterexample: with the starting address and the output file path
both configured but the proxy variable absent, run.main reports a missing
variable and returns without constructing the scraper, so the run does not
start. -/
theorem C2_counterexample :
    main ⟨none, some "http://quotes.toscrape.com/".toList,
      some "quotes.jsonl".toList⟩ = none := rfl

/-- C2 amended: all three environment variables, the proxy one included,
are required: the run starts exactly when PROXY, INPUT_URL and OUTPUT_FILE
are all set, and the absence of any of them, the proxy connection string
among them, is a startup error that prevents the scrape from starting. -/
theorem C2_amended_required (env : Env) :
    (main env).isSome ↔
      env.PROXY.isSome ∧ env.INPUT_URL.isSome ∧ env.OUTPUT_FILE.isSome := by
  obtain ⟨p, i, o⟩ := env
  cases p <;> cases i <;> cases o <;> simp [main]

/-- C9: every run launched through run.main builds the Scraper without the
proxy argument, so its proxy_url attribute is None, the credential parsing
of process_proxy never runs, and the browser launch receives no proxy
settings, even when the PROXY variable is configured. -/
theorem C9_proxy_unused (env : Env) (si : ScraperInit) (h : main env = some si) :
    si.proxy_url = none ∧ proxySetup si = (false, none) := by
  obtain ⟨p, i, o⟩ := env
  cases p <;> cases i <;> cases o <;> simp_all [main, proxySetup, proxyTruthy]
  subst h
  simp

/-- C9 applied to an environment that configures a proxy connection
string. -/
theorem C9_proxy_unused_witness :
    (⟨"http://quotes.toscrape.com/".toList, "quotes.jsonl".toList, none⟩
      : ScraperInit).proxy_url = none ∧
    proxySetup ⟨"http://quotes.toscrape.com/".toList, "quotes.jsonl".toList, none⟩
      = (false, none) :=
  C9_proxy_unused
    ⟨some "user:pass@host:8080".toList, some "http://quotes.toscrape.com/".toList,
      some "quotes.jsonl".toList⟩
    ⟨"http://quotes.toscrape.com/".toList, "quotes.jsonl".toList, none⟩ rfl

/-- C10: a record whose matched text element has content of length zero or
one does not make the extraction fail: the fixed offset slice stores the
empty text and the record is still appended to the sink. -/
theorem C10_short_text (t a : Str) (ts : List TagElem) (sink : List Record)
    (h : t.length ≤ 1) :
    process_page [⟨some t, some a, some ts⟩] sink
      = (sink ++ [⟨[], a, ts.map TagElem.text⟩], false) := by
  match t, h with
  | [], _ => rfl
  | [x], _ => rfl

/-- C10 applied to a text element holding a single character. -/
theorem C10_short_text_witness :
    process_page [⟨some "x".toList, some "A".toList, some []⟩] []
      = ([] ++ [⟨[], "A".toList, ([] : List TagElem).map TagElem.text⟩], false) :=
  C10_short_text "x".toList "A".toList [] [] (by decide)

/-- C3 counterexample: a page holding one well formed record container
whose text element holds only the two wrapping quote glyphs produces a
record whose stored text is empty, against the claim that every record
extracted from a well formed container has non-empty text and author
fields. -/
theorem C3_counterexample :
    wellFormed ⟨some ['"', '"'], some "Albert Einstein".toList, some []⟩ = true ∧
    process_page [⟨some ['"', '"'], some "Albert Einstein".toList, some []⟩] []
      = ([⟨[], "Albert Einstein".toList, []⟩], false) :=
  ⟨rfl, rfl⟩

/-- C3 amended: one extraction call on a page of N well formed record
containers appends exactly N records to the sink, each with a tags
sequence of length at least zero; the stored text is non-empty whenever
the matched text element has length at least three, and the stored author
is non-empty whenever the matched author element text is non-empty. -/
theorem C3_amended_extract (cs : List Container) (sink : List Record)
    (h : ∀ c ∈ cs, wellFormed c = true) :
    process_page cs sink = (sink ++ cs.map recordOf, false) ∧
    (cs.map recordOf).length = cs.length ∧
    ∀ c ∈ cs, 0 ≤ (recordOf c).tags.length ∧
      (3 ≤ (c.textElem.getD []).length → (recordOf c).text ≠ []) ∧
      (c.authorElem.getD [] ≠ [] → (recordOf c).author ≠ []) := by
  refine ⟨process_page_wf cs sink h, by simp, fun c hc => ⟨Nat.zero_le _, ?_, fun ha => ha⟩⟩
  intro h3 hemp
  have hlen := pySlice1m1_length (c.textElem.getD [])
  rw [show (recordOf c).text = pySlice1m1 (c.textElem.getD []) from rfl] at hemp
  rw [hemp] at hlen
  simp at hlen
  omega

/-- C3 amended, applied to a page of one well formed container. -/
theorem C3_amended_extract_witness :
    process_page [⟨some "\"Hi\"".toList, some "A".toList, some []⟩] []
      = ([] ++ [(⟨some "\"Hi\"".toList, some "A".toList, some []⟩ : Container)].map recordOf,
         false) ∧
    ([(⟨some "\"Hi\"".toList, some "A".toList, some []⟩ : Container)].map recordOf).length
      = [(⟨some "\"Hi\"".toList, some "A".toList, some []⟩ : Container)].length ∧
    ∀ c ∈ [(⟨some "\"Hi\"".toList, some "A".toList, some []⟩ : Container)],
      0 ≤ (recordOf c).tags.length ∧
      (3 ≤ (c.textElem.getD []).length → (recordOf c).text ≠ []) ∧
      (c.authorElem.getD [] ≠ [] → (recordOf c).author ≠ []) :=
  C3_amended_extract [⟨some "\"Hi\"".toList, some "A".toList, some []⟩] [] (by decide)

/-- C4: when the containers before position k are all well formed and the
container at position k is missing a required sub-element, extraction of
the page raises, the sink gains exactly the streamed records of the first
k containers, and nothing from the k-th or any later container is
written. -/
theorem C4_malformed_aborts (pre : List Container) (bad : Container)
    (post : List Container) (sink : List Record)
    (hpre : ∀ c ∈ pre, wellFormed c = true) (hbad : wellFormed bad = false) :
    process_page (pre ++ bad :: post) sink = (sink ++ pre.map recordOf, true) := by
  induction pre generalizing sink with
  | nil => simp [process_page, extractRecord_malformed bad hbad]
  | cons c cs ih =>
    have hc := hpre c (List.mem_cons_self c cs)
    simp only [List.cons_append, process_page, extractRecord_wf c hc, List.append_eq]
    rw [ih (sink ++ [recordOf c]) (fun d hd => hpre d (List.mem_cons_of_mem c hd))]
    simp

/-- C4 applied to a page whose second container is missing its text
element, with one well formed container on each side of it. -/
theorem C4_malformed_aborts_witness :
    process_page ([⟨some "\"q\"".toList, some "A".toList, some []⟩]
        ++ (⟨none, some "B".toList, some []⟩ : Container)
        :: [⟨some "\"r\"".toList, some "C".toList, some []⟩]) []
      = ([] ++ [(⟨some "\"q\"".toList, some "A".toList, some []⟩ : Container)].map recordOf,
         true) :=
  C4_malformed_aborts [⟨some "\"q\"".toList, some "A".toList, some []⟩]
    ⟨none, some "B".toList, some []⟩
    [⟨some "\"r\"".toList, some "C".toList, some []⟩] [] (by decide) (by decide)

/-- C5: text extraction is a fixed offset strip of exactly one leading and
one trailing character: a page holding one container whose text element
has length at least two stores a record whose text, flanked by the first
and the last character of the source text, reconstitutes the source text,
and whose length is the source length minus two. -/
theorem C5_text_strip (t a : Str) (ts : List TagElem) (sink : List Record)
    (h2 : 2 ≤ t.length) :
    ∃ r hd tl, process_page [⟨some t, some a, some ts⟩] sink = (sink ++ [r], false) ∧
      t = hd :: (r.text ++ [tl]) ∧ r.text.length = t.length - 2 := by
  match t, h2 with
  | x :: y :: rest, _ =>
    refine ⟨⟨pySlice1m1 (x :: y :: rest), a, ts.map TagElem.text⟩, x,
      (y :: rest).getLast (by simp), rfl, ?_, pySlice1m1_length (x :: y :: rest)⟩
    show x :: y :: rest = x :: (pySlice1m1 (x :: y :: rest) ++ [(y :: rest).getLast (by simp)])
    rw [show pySlice1m1 (x :: y :: rest) = (y :: rest).dropLast from rfl,
      List.dropLast_append_getLast]

/-- C5 applied to a thirteen character source text made of eleven
characters wrapped in two quote glyphs, stored as its middle eleven
characters. -/
theorem C5_text_strip_witness :
    ∃ r hd tl,
      process_page [⟨some "\"Hello world\"".toList, some "A".toList, some []⟩] []
        = ([] ++ [r], false) ∧
      "\"Hello world\"".toList = hd :: (r.text ++ [tl]) ∧
      r.text.length = "\"Hello world\"".toList.length - 2 :=
  C5_text_strip "\"Hello world\"".toList "A".toList [] [] (by decide)

/-- C6: in the pagination step of the loop, a next-page element found
within its timeout makes the loop set the current target to the post-click
location of the browser and re-enter the loading state there, so the run
continues exactly as a run started at that address on the remaining pages;
an absent next-page element yields no address and the loop terminates
normally with the done exit, not with an error. -/
theorem C6_pagination (url nxt : Str) (cs : List Container) (ps : List PageSpec)
    (sink : List Record) (hc : cs ≠ [])
    (hok : (process_page cs sink).2 = false) :
    scrapeLoop url (⟨cs, some nxt⟩ :: ps) sink
      = ((scrapeLoop nxt ps (process_page cs sink).1).1,
         url :: (scrapeLoop nxt ps (process_page cs sink).1).2.1,
         (scrapeLoop nxt ps (process_page cs sink).1).2.2) ∧
    scrapeLoop url (⟨cs, none⟩ :: ps) sink
      = ((process_page cs sink).1, [url], LoopExit.done) := by
  rcases hpp : process_page cs sink with ⟨s2, b⟩
  rw [hpp] at hok
  simp at hok
  subst hok
  rcases hsl : scrapeLoop nxt ps s2 with ⟨s3, vs, ex⟩
  constructor
  · simp [scrapeLoop, hc, hpp, hsl]
  · simp [scrapeLoop, hc, hpp]

/-- C6 applied to a first page of one well formed container followed by an
empty site model, once with a next link and once without. -/
theorem C6_pagination_witness :
    scrapeLoop "u1".toList
        (⟨[⟨some "\"q\"".toList, some "A".toList, some []⟩], some "u2".toList⟩ :: []) []
      = ((scrapeLoop "u2".toList []
            (process_page [⟨some "\"q\"".toList, some "A".toList, some []⟩] []).1).1,
         "u1".toList :: (scrapeLoop "u2".toList []
            (process_page [⟨some "\"q\"".toList, some "A".toList, some []⟩] []).1).2.1,
         (scrapeLoop "u2".toList []
            (process_page [⟨some "\"q\"".toList, some "A".toList, some []⟩] []).1).2.2) ∧
    scrapeLoop "u1".toList
        (⟨[⟨some "\"q\"".toList, some "A".toList, some []⟩], none⟩ :: []) []
      = ((process_page [⟨some "\"q\"".toList, some "A".toList, some []⟩] []).1,
         ["u1".toList], LoopExit.done) :=
  C6_pagination "u1".toList "u2".toList
    [⟨some "\"q\"".toList, some "A".toList, some []⟩] [] [] (by decide) (by decide)

/-- C7: the stored tags field of a record is the document order sequence
of the texts of the tag sub-elements of its tag container; with zero tag
sub-elements the stored tags value is the empty sequence, and the tags key
is still present in the written object line rather than omitted. -/
theorem C7_tags (t a : Str) (ts : List TagElem) (sink : List Record) :
    ∃ r, process_page [⟨some t, some a, some ts⟩] sink = (sink ++ [r], false) ∧
      r.tags = ts.map TagElem.text ∧
      ("tags".toList, JVal.arr r.tags) ∈ recordObj r ∧
      (ts = [] → r.tags = []) := by
  refine ⟨⟨pySlice1m1 t, a, ts.map TagElem.text⟩, rfl, rfl, ?_, ?_⟩
  · simp [recordObj]
  · intro h
    simp [h]

/-- C7 applied to a container whose tag container holds zero tag
sub-elements. -/
theorem C7_tags_witness :
    ∃ r, process_page [⟨some "\"q\"".toList, some "A".toList, some []⟩] []
        = ([] ++ [r], false) ∧
      r.tags = ([] : List TagElem).map TagElem.text ∧
      ("tags".toList, JVal.arr r.tags) ∈ recordObj r ∧
      (([] : List TagElem) = [] → r.tags = []) :=
  C7_tags "\"q\"".toList "A".toList [] []

/-- C8: the output store is append-only: each extraction call leaves the
prior sink content unchanged as a prefix and only adds records at the end,
a whole run does the same, and re-running the same site on the resulting
file appends the same records a second time, duplicating them. -/
theorem C8_append_only (url : Str) (site : List PageSpec) (sink : List Record)
    (cs : List Container) :
    (process_page cs sink).1 = sink ++ (process_page cs []).1 ∧
    (scrapeLoop url site sink).1 = sink ++ (scrapeLoop url site []).1 ∧
    (scrapeLoop url site (scrapeLoop url site sink).1).1
      = (sink ++ (scrapeLoop url site []).1) ++ (scrapeLoop url site []).1 := by
  have h1 := process_page_eq cs sink
  have h2 : (scrapeLoop url site sink).1 = sink ++ (scrapeLoop url site []).1 := by
    have hs := scrapeLoop_shift site url sink []
    simp only [List.append_nil] at hs
    rw [hs]
  refine ⟨by rw [h1], h2, ?_⟩
  rw [h2]
  have h3 := scrapeLoop_shift site url (sink ++ (scrapeLoop url site []).1) []
  simp only [List.append_nil] at h3
  rw [h3]
